import Mathlib

/-!
Shallow embedding of filter-dnsblscore (src/filter-dnsblscore.go), an
OpenSMTPD filter that scores connecting IP addresses against DNS blocklists
and decides proceed / junk / disconnect per session, with an optional
score header and a score-proportional delay.

Machine integers: the Go code stores scores in `int8` and casts the
user-supplied thresholds with `int8(*blockAbove)` / `int8(*junkAbove)`;
we model `int8` values as `Int` and the cast as wrapping modulo 2^8 into
-128..127 (`toInt8`).  The delay computation in `filterConnect`
multiplies plain `int` values, which wrap modulo 2^64 on a 64-bit
platform, modelled by `toInt64`; Go's `/` truncates toward zero, which is
Lean's `Int.tdiv`.
-/

namespace DnsblScore

/-- Go `int8(n)` conversion: wrap an integer modulo 2^8 into -128..127. -/
def toInt8 (n : Int) : Int := (n + 128) % 256 - 128

/-- Go arithmetic on the platform word type `int` (64-bit): wrap an
integer modulo 2^64 into -2^63..2^63-1.  A product of two in-range `int`
values wraps through this conversion. -/
def toInt64 (n : Int) : Int := (n + 2 ^ 63) % 2 ^ 64 - 2 ^ 63

/-- Go `strconv.ParseInt(s, 10, 8)` applied to the decimal rendering of an
octet value 0..255, with the error ignored by the caller (linkConnect):
values above the int8 maximum return 127 together with `ErrRange`, and the
caller keeps the 127. -/
def parseIntOct8 (d : Nat) : Int := if d ≤ 127 then (d : Int) else 127

/-- `addr.Mask(net.CIDRMask(ones, 32))` on a 32-bit IPv4 address value:
keep the top `ones` bits. -/
def mask32 (addr : Nat) (ones : Nat) : Nat :=
  addr / 2 ^ (32 - ones) * 2 ^ (32 - ones)

/-- The 32-bit value of dotted-quad `a.b.c.d`. -/
def addrNat (a b c d : Nat) : Nat :=
  a * 2 ^ 24 + b * 2 ^ 16 + c * 2 ^ 8 + d

/-- One parsed allowlist entry, as produced by `net.ParseCIDR` in
`loadAllowlists`: the network base address (already masked) and the mask
length.  The Go code stores the entry as its canonical string
"base/ones"; for IPv4 two entries have the same string iff they have the
same base value and mask length, so we carry the pair. -/
structure Pfx where
  base : Nat
  ones : Nat
deriving DecidableEq, Repr

/-- Result of `net.ParseIP(strings.Split(params[2], ":")[0])` in
`linkConnect`, classified the way the code branches on it: a parsed IPv4
address with its four octets, an address whose string form contains ':'
(IPv6), or a failed parse (`nil`). -/
inductive Addr where
  | v4 (a b c d : Nat)
  | v6
  | invalid
deriving DecidableEq

/-- The process configuration: command-line flags plus the parsed
allowlist (`allowlist` set and `allowlistMasks` set, both built by
`loadAllowlists`, modelled as lists). -/
structure Config where
  blockAbove : Int
  blockPhase : String
  junkAbove : Int
  slowFactor : Int
  scoreHeader : Bool
  testMode : Bool
  domains : List String
  allowlist : List Pfx
  allowlistMasks : List Nat
deriving DecidableEq

/-- Membership test `allowlist[query]` for the query string built from the
masked address and one mask length `m`. -/
def allowlistQuery (allow : List Pfx) (addr : Nat) (m : Nat) : Bool :=
  allow.any fun p => p.base == mask32 addr m && p.ones == m

/-- The allowlist loop of `linkConnect`: for each mask length in
`allowlistMasks`, mask the address and test membership in the allowlist
set; any hit yields a match. -/
def allowlistMatch (cfg : Config) (addr : Nat) : Bool :=
  cfg.allowlistMasks.any fun m => allowlistQuery cfg.allowlist addr m

/-- Outcome of the scoring part of `linkConnect`: the final `s.score` and
the number of DNS lookups (`net.LookupIP` calls) performed. -/
structure ScoreResult where
  score : Int
  lookups : Nat
deriving DecidableEq, Repr

/-- The scoring logic of `linkConnect` after the session is created with
score -1: early return for non-IPv4 addresses; allowlist match yields 0;
test mode derives the score from the last octet (255 means unknown,
otherwise `ParseInt(octet, 10, 8)` with the error dropped); normal mode
counts, over the configured domains, those whose lookup succeeds with a
non-empty result (`resolve i = true` for the i-th domain), then casts the
count with `int8`. -/
def linkConnectScore (cfg : Config) (addr : Addr) (resolve : Nat → Bool) :
    ScoreResult :=
  match addr with
  | .v6 => ⟨-1, 0⟩
  | .invalid => ⟨-1, 0⟩
  | .v4 a b c d =>
    if allowlistMatch cfg (addrNat a b c d) then ⟨0, 0⟩
    else if cfg.testMode then
      if d == 255 then ⟨-1, 0⟩
      else ⟨toInt8 (parseIntOct8 d), 0⟩
    else
      ⟨toInt8 ((List.range cfg.domains.length).countP (fun i => resolve i) : Int),
       cfg.domains.length⟩

/-- Per-session state (Go struct `session`).  `id` is never assigned by
the code (it stays at the zero value), `score` starts at -1, `delay` at
0 and `first_line` at true. -/
structure session where
  id : String
  score : Int
  delay : Int
  first_line : Bool
deriving DecidableEq, Repr

/-- The session created at the top of `linkConnect` once scoring has run:
`&session{}` with `first_line = true` and the computed score (initially
-1, overwritten in place before the handler returns). -/
def freshSession (score : Int) : session :=
  { id := "", score := score, delay := 0, first_line := true }

/-- The session store, a map from session id to session state
(`sessions`), as an association list with at most one binding per id. -/
abbrev Store := List (String × session)

/-- Go map assignment `sessions[sessionId] = s`: replace any existing
binding for the id. -/
def storeSet (st : Store) (k : String) (v : session) : Store :=
  (k, v) :: st.filter fun p => p.1 ≠ k

/-- Go map lookup `sessions[sessionId]`. -/
def storeGet (st : Store) (k : String) : Option session :=
  st.lookup k

/-- Outcome of an event handler: either the updated store, or process
termination via `log.Fatal` with a diagnostic. -/
inductive Outcome (α : Type) where
  | ok (val : α)
  | fatal (msg : String)
deriving DecidableEq

/-- The `linkConnect` reporter: fatally abort when the parameter count is
not 4; otherwise create a fresh session, score it, and store it under the
event's session id (plain map assignment, replacing any previous
binding).  `addr` is the classified result of parsing the host part of
`params[2]`, and `resolve` the DNS behaviour per domain index. -/
def linkConnect (cfg : Config) (st : Store) (sessionId : String)
    (params : List String) (addr : Addr) (resolve : Nat → Bool) :
    Outcome Store :=
  if params.length ≠ 4 then .fatal "invalid input, shouldn't happen"
  else .ok (storeSet st sessionId
    (freshSession (linkConnectScore cfg addr resolve).score))

/-- The three verdict texts a filter-result response can carry. -/
inductive Verdict where
  | proceed
  | junk
  | disconnect
deriving DecidableEq, Repr

/-- The verdict chosen by `filterConnect`: disconnect when the score is
known, the block threshold (cast to int8) is enabled, the score strictly
exceeds it and the configured block phase is "connect"; otherwise junk
when the score is known, the junk threshold (cast to int8) is enabled and
the score strictly exceeds it; otherwise proceed. -/
def filterConnectVerdict (cfg : Config) (score : Int) : Verdict :=
  if score ≠ -1 ∧ 0 ≤ toInt8 cfg.blockAbove ∧ toInt8 cfg.blockAbove < score ∧
      cfg.blockPhase = "connect" then .disconnect
  else if score ≠ -1 ∧ 0 ≤ toInt8 cfg.junkAbove ∧ toInt8 cfg.junkAbove < score
    then .junk
  else .proceed

/-- The verdict chosen by `delayedAnswer` at a given phase: disconnect
under the same block condition with the configured block phase equal to
the current phase; otherwise proceed (no junk re-derivation). -/
def delayedAnswerVerdict (cfg : Config) (phase : String) (score : Int) :
    Verdict :=
  if score ≠ -1 ∧ 0 ≤ toInt8 cfg.blockAbove ∧ toInt8 cfg.blockAbove < score ∧
      cfg.blockPhase = phase then .disconnect
  else .proceed

/-- The delay computed at the top of `filterConnect` and stored in
`s.delay`: `*slowFactor * int(s.score) / len(domains)` when both the
slow factor and the score are positive, else 0.  The multiplication is
on Go `int` values and wraps modulo 2^64 when the product overflows;
the division truncates toward zero (it cannot itself overflow, the
divisor being a positive length). -/
def computeDelay (cfg : Config) (score : Int) : Int :=
  if 0 < cfg.slowFactor ∧ 0 < score then
    Int.tdiv (toInt64 (cfg.slowFactor * score)) (cfg.domains.length : Int)
  else 0

/-- The `filterConnect` handler on a session: store the computed delay,
then answer with the connect verdict (emitted by `waitThenAction` after
sleeping `delay` milliseconds). -/
def filterConnect (cfg : Config) (s : session) : session × Verdict :=
  ({ s with delay := computeDelay cfg s.score }, filterConnectVerdict cfg s.score)

/-- The phases routed to `delayedAnswer` in the `filters` table (all
registered filter phases except "connect" and "data-line"). -/
def delayedPhases : List String :=
  ["helo", "ehlo", "starttls", "auth", "mail-from", "rcpt-to", "data",
   "commit", "quit"]

/-- The verdict produced for a filter event at a phase: `filterConnect`
for "connect", `delayedAnswer` for the other verdict-bearing phases, and
none otherwise ("data-line" emits only pass-through filter-dataline
lines and an unregistered phase is fatal in `trigger`). -/
def filterVerdict (cfg : Config) (phase : String) (score : Int) :
    Option Verdict :=
  if phase = "connect" then some (filterConnectVerdict cfg score)
  else if phase ∈ delayedPhases then some (delayedAnswerVerdict cfg phase score)
  else none

/-- The `dataline` handler on a session: on the session's first body line,
emit the X-DNSBL-Score header line when the score is known and the
score-header flag is set, and clear `first_line`; then always emit the
pass-through line.  Returns the updated session and the number of
response lines written. -/
def dataline (cfg : Config) (s : session) : session × Nat :=
  if s.first_line then
    ({ s with first_line := false },
     (if s.score ≠ -1 ∧ cfg.scoreHeader then 1 else 0) + 1)
  else (s, 1)

/-- A filter event addressed to one session after connect: a body line
("data-line") or any other filter phase (helo, data, commit, quit, ...),
which answers with one filter-result line and leaves `first_line`
untouched. -/
inductive Ev where
  | dataLine
  | otherPhase (phase : String)
deriving DecidableEq, Repr

/-- Process one event against the session state, returning the new state
and the number of response lines emitted for that event. -/
def stepEv (cfg : Config) (s : session) (e : Ev) : session × Nat :=
  match e with
  | .dataLine => dataline cfg s
  | .otherPhase _ => (s, 1)

/-- The per-event response-line counts over a sequence of events for one
session. -/
def runCounts (cfg : Config) (s : session) : List Ev → List Nat
  | [] => []
  | e :: es =>
    let r := stepEv cfg s e
    r.2 :: runCounts cfg r.1 es

/-- The response-line counts a session with known score and the
score-header flag set actually produces: 2 for the first data-line of
the whole session, 1 for every other event, with no reset at message
boundaries. -/
def headerOnceCounts : Bool → List Ev → List Nat
  | _, [] => []
  | fresh, .dataLine :: es =>
    (if fresh then 2 else 1) :: headerOnceCounts false es
  | fresh, .otherPhase _ :: es => 1 :: headerOnceCounts fresh es

/-- Split a character list on a separator character, Go
`strings.Split`: always returns one piece more than the number of
separator occurrences. -/
def splitOnChar (c : Char) : List Char → List (List Char)
  | [] => [[]]
  | x :: xs =>
    match splitOnChar c xs with
    | [] => [[]]
    | y :: ys => if x = c then [] :: y :: ys else (x :: y) :: ys

/-- Decimal value of a digit list. -/
def decVal (s : List Char) : Nat :=
  s.foldl (fun acc c => acc * 10 + (c.toNat - 48)) 0

/-- Go `strconv.Atoi` with the error ignored by the caller
(`produceOutput`): an optional sign followed by digits parses to its
value, anything else yields 0 with an error that the caller drops.
(The 64-bit range clamp is not modelled; version components are small.) -/
def atoiModel (s : List Char) : Int :=
  match s with
  | '+' :: rest =>
    if rest ≠ [] ∧ rest.all Char.isDigit then (decVal rest : Int) else 0
  | '-' :: rest =>
    if rest ≠ [] ∧ rest.all Char.isDigit then -(decVal rest : Int) else 0
  | _ => if s ≠ [] ∧ s.all Char.isDigit then (decVal s : Int) else 0

/-- The framing check of the main loop: a line with fewer than six
pipe-separated fields is fatal (`log.Fatalf("missing atoms: ...")`). -/
def framingOk (atoms : List String) : Bool := !(atoms.length < 6)

/-- `produceOutput`: split the recorded protocol version on '.', read the
major component from index 0 and the minor component from index 1, and
order the response fields by version (token before session id for
versions below 0.5).  Indexing `tokens[1]` is partial: when the version
field holds no '.', the split has a single piece and the Go code panics
with an index-out-of-range runtime error instead of returning a line,
modelled as `none`. -/
def produceOutput (version : List Char) (msgType sessionId token payload : String) :
    Option String :=
  let tokens := splitOnChar '.' version
  match tokens[1]? with
  | none => none
  | some t1 =>
    let hiver := atoiModel (tokens.headD [])
    let lover := atoiModel t1
    some (if hiver == 0 ∧ lover < 5 then
        msgType ++ "|" ++ token ++ "|" ++ sessionId ++ "|" ++ payload
      else
        msgType ++ "|" ++ sessionId ++ "|" ++ token ++ "|" ++ payload)

/-! Concrete configurations and sessions used to evaluate the model. -/

/-- A test-mode configuration with the score header enabled and every
threshold at its disabled default. -/
def cfg0 : Config :=
  { blockAbove := -1, blockPhase := "connect", junkAbove := -1,
    slowFactor := -1, scoreHeader := true, testMode := true,
    domains := ["bl.example"], allowlist := [], allowlistMasks := [] }

/-- A normal-mode configuration whose allowlist holds the single entry
10.0.0.0/24. -/
def cfgA : Config :=
  { cfg0 with
    testMode := false,
    allowlist := [⟨addrNat 10 0 0 0, 24⟩],
    allowlistMasks := [24] }

/-- A configuration with block threshold 5 and junk threshold 3. -/
def cfgW : Config := { cfg0 with blockAbove := 5, junkAbove := 3 }

/-- A configuration with block threshold 1 at phase "helo" and junk
threshold 2. -/
def cfg7 : Config :=
  { cfg0 with blockAbove := 1, blockPhase := "helo", junkAbove := 2 }

/-- A configuration with slow factor 7 and two resolver domains. -/
def cfg8 : Config := { cfg0 with slowFactor := 7, domains := ["a", "b"] }

/-- A configuration whose legal slow factor 9*10^17 overflows the 64-bit
product with a score of 100. -/
def cfgO : Config := { cfg0 with slowFactor := 900000000000000000 }

/-- A session with recorded state, standing for an earlier connect. -/
def oldSess : session :=
  { id := "", score := 7, delay := 3, first_line := false }

/-! Helper lemmas. -/

/-- The int8 wrap is idempotent. -/
theorem toInt8_idem (n : Int) : toInt8 (toInt8 n) = toInt8 n := by
  unfold toInt8
  omega

/-- The int8 wrap is the identity on 0..127. -/
theorem toInt8_small (n : Int) (h0 : 0 ≤ n) (h1 : n ≤ 127) : toInt8 n = n := by
  unfold toInt8
  omega

/-- The int64 wrap is the identity on -2^63..2^63-1. -/
theorem toInt64_small (n : Int) (h0 : -(2 ^ 63) ≤ n) (h1 : n ≤ 2 ^ 63 - 1) :
    toInt64 n = n := by
  unfold toInt64
  omega

/-- Truncating division of nonnegative integers is natural division. -/
theorem tdiv_natCast (m n : Nat) :
    Int.tdiv (m : Int) (n : Int) = ((m / n : Nat) : Int) := rfl

/-- Looking up the id just assigned returns the new session. -/
theorem storeGet_storeSet (st : Store) (k : String) (v : session) :
    storeGet (storeSet st k v) k = some v := by
  simp [storeGet, storeSet, List.lookup]

/-- Splitting on a character that does not occur returns the whole list
as a single piece. -/
theorem splitOnChar_not_mem (c : Char) (l : List Char) (h : c ∉ l) :
    splitOnChar c l = [l] := by
  induction l with
  | nil => rfl
  | cons x xs ih =>
    have hx : x ≠ c := fun hxc => h (hxc ▸ List.mem_cons_self x xs)
    have hxs : c ∉ xs := fun hc => h (List.mem_cons_of_mem x hc)
    simp [splitOnChar, ih hxs, hx]

/-! Claim theorems. -/

/-- C1 (counterexample): in test mode, the non-allowlisted address
1.2.3.200 gets score 127 and not its last octet 200 — `ParseInt` with bit
size 8 returns the int8 maximum on overflow and the error is dropped —
refuting "for every d in 0..254 the session's score equals d". -/
theorem C1_counterexample :
    (linkConnectScore cfg0 (.v4 1 2 3 200) (fun _ => false)).score = 127 ∧
    ¬(linkConnectScore cfg0 (.v4 1 2 3 200) (fun _ => false)).score = 200 := by
  decide

/-- Claim C1 (amended): in test mode, for an IPv4 address a.b.c.d that
does not match the allowlist, d = 255 gives the unknown score -1, d in
0..127 gives score d, d in 128..254 gives score 127 (the signed 8-bit
parse clamps to the int8 maximum), and no lookup is performed. -/
theorem C1_testmode_score (cfg : Config) (a b c d : Nat) (resolve : Nat → Bool)
    (htest : cfg.testMode = true) (hd : d < 256)
    (hallow : allowlistMatch cfg (addrNat a b c d) = false) :
    (d = 255 → linkConnectScore cfg (.v4 a b c d) resolve = ⟨-1, 0⟩) ∧
    (d ≤ 127 → linkConnectScore cfg (.v4 a b c d) resolve = ⟨(d : Int), 0⟩) ∧
    (128 ≤ d → d ≤ 254 →
      linkConnectScore cfg (.v4 a b c d) resolve = ⟨127, 0⟩) := by
  refine ⟨fun h255 => ?_, fun hle => ?_, fun hge hle => ?_⟩
  · subst h255
    simp [linkConnectScore, hallow, htest]
  · have hne : d ≠ 255 := by omega
    have : toInt8 (parseIntOct8 d) = (d : Int) := by
      rw [parseIntOct8, if_pos hle]
      exact toInt8_small _ (by positivity) (by exact_mod_cast hle)
    simp [linkConnectScore, hallow, htest, hne, this]
  · have hne : d ≠ 255 := by omega
    have hgt : ¬ d ≤ 127 := by omega
    have : toInt8 (parseIntOct8 d) = 127 := by
      rw [parseIntOct8, if_neg hgt]
      decide
    simp [linkConnectScore, hallow, htest, hne, this]

/-- Witness for C1 at the concrete address 1.2.3.10 in test mode. -/
theorem C1_testmode_score_witness :
    linkConnectScore cfg0 (.v4 1 2 3 10) (fun _ => false) = ⟨(10 : Int), 0⟩ :=
  (C1_testmode_score cfg0 1 2 3 10 (fun _ => false) rfl (by decide)
    (by decide)).2.1 (by decide)

/-- C2 (counterexample): a link-connect event whose session id "A" is
already bound in the store does not terminate the process — the handler
returns an updated store in which the old session was silently replaced
by the freshly scored one. -/
theorem C2_counterexample :
    linkConnect cfg0 [("A", oldSess)] "A" ["tok", "helo", "1.2.3.4:25", "lcl"]
        (.v4 1 2 3 4) (fun _ => false) =
      .ok [("A", freshSession 4)] ∧
    ¬ oldSess = freshSession 4 := by
  decide

/-- Claim C2 (amended): a link-connect event with the expected four
parameters never aborts, whether or not the session id is already
present: the handler stores a fresh session under the id, replacing any
existing binding, and a subsequent lookup of the id returns that fresh
session. -/
theorem C2_linkConnect_overwrites (cfg : Config) (st : Store) (sid : String)
    (params : List String) (addr : Addr) (resolve : Nat → Bool)
    (hp : params.length = 4) :
    linkConnect cfg st sid params addr resolve =
      .ok (storeSet st sid
        (freshSession (linkConnectScore cfg addr resolve).score)) ∧
    storeGet (storeSet st sid
        (freshSession (linkConnectScore cfg addr resolve).score)) sid =
      some (freshSession (linkConnectScore cfg addr resolve).score) := by
  constructor
  · simp [linkConnect, hp]
  · exact storeGet_storeSet ..

/-- Witness for C2 on a store already holding session id "A". -/
theorem C2_linkConnect_overwrites_witness :
    linkConnect cfg0 [("A", oldSess)] "A" ["tok", "helo", "1.2.3.4:25", "lcl"]
        (.v4 1 2 3 4) (fun _ => false) =
      .ok (storeSet [("A", oldSess)] "A"
        (freshSession (linkConnectScore cfg0 (.v4 1 2 3 4)
          (fun _ => false)).score)) ∧
    storeGet (storeSet [("A", oldSess)] "A"
        (freshSession (linkConnectScore cfg0 (.v4 1 2 3 4)
          (fun _ => false)).score)) "A" =
      some (freshSession (linkConnectScore cfg0 (.v4 1 2 3 4)
        (fun _ => false)).score) :=
  C2_linkConnect_overwrites cfg0 [("A", oldSess)] "A"
    ["tok", "helo", "1.2.3.4:25", "lcl"] (.v4 1 2 3 4) (fun _ => false) rfl

/-- C3 (counterexample): with score 5 known and the score header enabled,
the event sequence body line, commit, body line — i.e. two one-line
messages in one session — yields response counts [2, 1, 1] and not
[2, 1, 2]: the first body line of the second message gets no header
because `first_line` is never reset at a message boundary. -/
theorem C3_counterexample :
    runCounts cfg0 (freshSession 5)
        [.dataLine, .otherPhase "commit", .dataLine] = [2, 1, 1] ∧
    ¬ runCounts cfg0 (freshSession 5)
        [.dataLine, .otherPhase "commit", .dataLine] = [2, 1, 2] := by
  decide

/-- Claim C3 (amended): for a session with known score and the
score-header option enabled, the header is injected exactly once per
session: the first body line of the session produces two response lines
and every other event — including the first body line of any later
message of the same session — produces one. -/
theorem C3_header_once (cfg : Config) (s : session)
    (hscore : s.score ≠ -1) (hhdr : cfg.scoreHeader = true) (evs : List Ev) :
    runCounts cfg s evs = headerOnceCounts s.first_line evs := by
  induction evs generalizing s with
  | nil => rfl
  | cons e es ih =>
    cases e with
    | dataLine =>
      by_cases hf : s.first_line = true
      · simp [runCounts, stepEv, dataline, hf, hscore, hhdr, headerOnceCounts,
          ih { s with first_line := false } hscore]
      · simp only [Bool.not_eq_true] at hf
        simp [runCounts, stepEv, dataline, hf, headerOnceCounts, ih s hscore]
    | otherPhase p =>
      simp [runCounts, stepEv, headerOnceCounts, ih s hscore]

/-- Witness for C3 on two consecutive body lines of a fresh session. -/
theorem C3_header_once_witness :
    runCounts cfg0 (freshSession 5) [.dataLine, .dataLine] =
      headerOnceCounts (freshSession 5).first_line [.dataLine, .dataLine] :=
  C3_header_once cfg0 (freshSession 5) (by decide) rfl [.dataLine, .dataLine]

/-- Claim C4: an IPv4 address that, masked to the length of some
configured allowlist entry, equals that entry's base gets score 0 and
causes no lookup, whatever the resolver does and whether or not test mode
is on (the entry's mask length sits in the probed mask set, as
`loadAllowlists` guarantees). -/
theorem C4_allowlist_zero (cfg : Config) (a b c d : Nat) (resolve : Nat → Bool)
    (p : Pfx) (hp : p ∈ cfg.allowlist) (hm : p.ones ∈ cfg.allowlistMasks)
    (hmatch : mask32 (addrNat a b c d) p.ones = p.base) :
    linkConnectScore cfg (.v4 a b c d) resolve = ⟨0, 0⟩ := by
  have hq : allowlistQuery cfg.allowlist (addrNat a b c d) p.ones = true := by
    refine List.any_eq_true.2 ⟨p, hp, ?_⟩
    simp [hmatch]
  have hall : allowlistMatch cfg (addrNat a b c d) = true :=
    List.any_eq_true.2 ⟨p.ones, hm, hq⟩
  simp [linkConnectScore, hall]

/-- Witness for C4: 10.0.0.5 matches the allowlist entry 10.0.0.0/24 in
normal mode with a resolver that hits on every domain. -/
theorem C4_allowlist_zero_witness :
    linkConnectScore cfgA (.v4 10 0 0 5) (fun _ => true) = ⟨0, 0⟩ :=
  C4_allowlist_zero cfgA 10 0 0 5 (fun _ => true) ⟨addrNat 10 0 0 0, 24⟩
    (by decide) (by decide) (by decide)

/-- Claim C5: threshold comparison is strict: a score exactly equal to
the enabled (int8-cast, nonnegative) block threshold never yields a
disconnect verdict at any phase, and a score exactly equal to the enabled
junk threshold never yields a junk verdict at connect. -/
theorem C5_strict_threshold (cfg : Config) (phase : String) (score : Int) :
    (0 ≤ toInt8 cfg.blockAbove → score = toInt8 cfg.blockAbove →
      ¬ filterVerdict cfg phase score = some .disconnect) ∧
    (0 ≤ toInt8 cfg.junkAbove → score = toInt8 cfg.junkAbove →
      ¬ filterVerdict cfg "connect" score = some .junk) := by
  constructor
  · intro hen heq
    unfold filterVerdict filterConnectVerdict delayedAnswerVerdict
    split_ifs <;> simp_all
  · intro hen heq
    unfold filterVerdict filterConnectVerdict
    split_ifs <;> simp_all

/-- Witness for C5 with block threshold 5 and junk threshold 3. -/
theorem C5_strict_threshold_witness :
    ¬ filterVerdict cfgW "connect" 5 = some .disconnect ∧
    ¬ filterVerdict cfgW "connect" 3 = some .junk :=
  ⟨(C5_strict_threshold cfgW "connect" 5).1 (by decide) (by decide),
   (C5_strict_threshold cfgW "connect" 3).2 (by decide) (by decide)⟩

/-- Claim C6: a session with the unknown score -1 — in particular one
whose connecting address was IPv6-formatted or unparsable, which
linkConnect leaves at -1 — gets the proceed verdict at every
verdict-bearing filter phase and no verdict at all elsewhere, whatever
the configured thresholds. -/
theorem C6_unknown_proceeds (cfg : Config) (phase : String)
    (resolve : Nat → Bool) :
    (filterVerdict cfg phase (-1) = some .proceed ∨
      filterVerdict cfg phase (-1) = none) ∧
    (linkConnectScore cfg .v6 resolve).score = -1 ∧
    (linkConnectScore cfg .invalid resolve).score = -1 := by
  refine ⟨?_, rfl, rfl⟩
  unfold filterVerdict filterConnectVerdict delayedAnswerVerdict
  split_ifs <;> simp_all

/-- Claim C7: a disconnect verdict fires only at the configured block
phase: at every other verdict-bearing phase, a session whose known score
strictly exceeds the enabled block threshold gets junk exactly when the
phase is connect with the junk threshold enabled and exceeded, and
proceed otherwise. -/
theorem C7_block_phase_only (cfg : Config) (phase : String) (score : Int)
    (hreg : phase = "connect" ∨ phase ∈ delayedPhases)
    (hph : ¬ phase = cfg.blockPhase)
    (hscore : ¬ score = -1) (hen : 0 ≤ toInt8 cfg.blockAbove)
    (hgt : toInt8 cfg.blockAbove < score) :
    filterVerdict cfg phase score =
      some (if phase = "connect" ∧ 0 ≤ toInt8 cfg.junkAbove ∧
          toInt8 cfg.junkAbove < score then .junk else .proceed) := by
  by_cases hc : phase = "connect"
  · subst hc
    have hbp : ¬ cfg.blockPhase = "connect" := fun h => hph h.symm
    unfold filterVerdict filterConnectVerdict
    split_ifs <;> simp_all
  · have hd : phase ∈ delayedPhases := hreg.resolve_left hc
    have hbp : ¬ cfg.blockPhase = phase := fun h => hph h.symm
    unfold filterVerdict delayedAnswerVerdict
    split_ifs <;> simp_all

/-- Witness for C7: block threshold 1 at phase "helo", junk threshold 2,
score 4 at connect yields junk, not disconnect. -/
theorem C7_block_phase_only_witness :
    filterVerdict cfg7 "connect" 4 =
      some (if ("connect" : String) = "connect" ∧ 0 ≤ toInt8 cfg7.junkAbove ∧
          toInt8 cfg7.junkAbove < 4 then .junk else .proceed) :=
  C7_block_phase_only cfg7 "connect" 4 (Or.inl rfl) (by decide) (by decide)
    (by decide) (by decide)

/-- C8 (counterexample): the legal slow factor 9*10^17 with score 100 and
one resolver domain overflows the 64-bit product 9*10^19: the program
stores the wrapped, negative delay -2233720368547758080, not
floor(slowFactor * score / 1) = 9*10^19, refuting the claimed formula. -/
theorem C8_counterexample :
    (filterConnect cfgO (freshSession 100)).1.delay = -2233720368547758080 ∧
    ¬ (filterConnect cfgO (freshSession 100)).1.delay =
        ((cfgO.slowFactor.toNat * (freshSession 100).score.toNat /
          cfgO.domains.length : Nat) : Int) := by
  decide

/-- Claim C8 (amended): when the slow factor and the score are positive
and the product slowFactor * score fits in a 64-bit int, the delay
`filterConnect` stores equals floor(slowFactor * score / number of
domains) milliseconds; the delay is 0 whenever the slow factor is
disabled or the score is nonpositive (including the unknown score -1).
When the product overflows, the stored delay is instead the 2^64-wrapped
product divided (truncating) by the domain count. -/
theorem C8_delay_formula (cfg : Config) (s : session)
    (hdom : ¬ cfg.domains = [])
    (hfit : cfg.slowFactor * s.score ≤ 2 ^ 63 - 1) :
    (0 < cfg.slowFactor → 0 < s.score →
      (filterConnect cfg s).1.delay =
        ((cfg.slowFactor.toNat * s.score.toNat / cfg.domains.length : Nat) :
          Int)) ∧
    (cfg.slowFactor ≤ 0 ∨ s.score ≤ 0 → (filterConnect cfg s).1.delay = 0) := by
  constructor
  · intro h1 h2
    have hprod : cfg.slowFactor * s.score =
        ((cfg.slowFactor.toNat * s.score.toNat : Nat) : Int) := by
      push_cast [Int.toNat_of_nonneg h1.le, Int.toNat_of_nonneg h2.le]
      rfl
    show computeDelay cfg s.score = _
    rw [computeDelay, if_pos ⟨h1, h2⟩, hprod,
      toInt64_small _ (le_trans (by norm_num) (Int.natCast_nonneg _))
        (hprod ▸ hfit),
      tdiv_natCast]
  · intro hdis
    show computeDelay cfg s.score = 0
    rw [computeDelay, if_neg (by omega)]

/-- Witness for C8: slow factor 7, two domains, score 5 gives delay
17 = floor(35 / 2); the disabled slow factor of cfg0 gives delay 0. -/
theorem C8_delay_formula_witness :
    (filterConnect cfg8 (freshSession 5)).1.delay =
      ((cfg8.slowFactor.toNat * (freshSession 5).score.toNat /
        cfg8.domains.length : Nat) : Int) ∧
    (filterConnect cfg0 (freshSession 5)).1.delay = 0 :=
  ⟨(C8_delay_formula cfg8 (freshSession 5) (by decide) (by decide)).1
      (by decide) (by decide),
   (C8_delay_formula cfg0 (freshSession 5) (by decide) (by decide)).2
      (Or.inl (by decide))⟩

/-- Claim C9: both threshold comparisons are performed on the signed
8-bit cast of the user-supplied value: replacing each threshold by its
int8 wrap leaves every verdict unchanged, the wrap lands in -128..127 and
agrees with the original value modulo 2^8, and the concrete threshold 128
(wrapping to -128) can never produce a disconnect. -/
theorem C9_threshold_int8_wrap (cfg : Config) (phase : String) (score : Int) :
    filterVerdict
        { cfg with
          blockAbove := toInt8 cfg.blockAbove,
          junkAbove := toInt8 cfg.junkAbove } phase score =
      filterVerdict cfg phase score ∧
    (-128 ≤ toInt8 cfg.blockAbove ∧ toInt8 cfg.blockAbove ≤ 127 ∧
      (cfg.blockAbove - toInt8 cfg.blockAbove) % 256 = 0) ∧
    (-128 ≤ toInt8 cfg.junkAbove ∧ toInt8 cfg.junkAbove ≤ 127 ∧
      (cfg.junkAbove - toInt8 cfg.junkAbove) % 256 = 0) ∧
    ¬ filterVerdict { cfg with blockAbove := 128 } phase score =
        some .disconnect := by
  refine ⟨?_, ?_, ?_, ?_⟩
  · simp [filterVerdict, filterConnectVerdict, delayedAnswerVerdict,
      toInt8_idem]
  · unfold toInt8
    omega
  · unfold toInt8
    omega
  · have h128 : toInt8 128 = -128 := by decide
    unfold filterVerdict filterConnectVerdict delayedAnswerVerdict
    split_ifs <;> simp_all

/-- Claim C10: a six-field event line passes the framing check even when
its protocol-version field holds no '.', but then the version split has a
single piece, indexing the minor component is out of bounds, and
`produceOutput` cannot return a response line (the Go process panics). -/
theorem C10_no_dot_no_response (atoms : List String) (v : String)
    (h6 : 6 ≤ atoms.length) (hv : atoms[1]? = some v)
    (hdot : '.' ∉ v.toList) (msgType sessionId token payload : String) :
    framingOk atoms = true ∧
    produceOutput v.toList msgType sessionId token payload = none := by
  constructor
  · simp only [framingOk, Bool.not_eq_true']
    simp only [decide_eq_false_iff_not, not_lt]
    exact h6
  · have h1 := splitOnChar_not_mem '.' v.toList hdot
    simp only [String.toList] at h1
    simp [produceOutput, h1]

/-- Witness for C10 on the line
"filter|1|0|smtp-in|connect|sid": six fields, version "1" without
a dot. -/
theorem C10_no_dot_no_response_witness :
    framingOk ["filter", "1", "0", "smtp-in", "connect", "sid"] = true ∧
    produceOutput "1".toList "filter-result" "sid" "tok" "proceed" = none :=
  C10_no_dot_no_response ["filter", "1", "0", "smtp-in", "connect", "sid"] "1"
    (by decide) rfl (by decide) "filter-result" "sid" "tok" "proceed"

end DnsblScore
